import Mathlib

/-
Verification of the tapping-time forecast-scoring engine.

Shallow embedding of `src/scoring.ts` (day rating, window finding,
recommendation generation) and of the season-timing module
(`getSeasonInfo`, `doyToDate`).  JavaScript numbers are modelled as
rationals (ℚ); `null`-able temperatures as `Option ℚ`.  The only
partial operation in the modelled code is the `days[0].date` access in
`generateRecommendation`, which in JavaScript throws a `TypeError` when
`days` is empty while a non-empty window is present; it is modelled by
an `Option Recommendation` result, `none` standing for the throw.
`formatDate` (locale-dependent presentation) is taken as an opaque-in-spirit
string-transformer parameter `fmt`; none of the verified properties depend
on its output.
-/

-- ── Types (from src/scoring.ts) ────────────────────────────────────────────

inductive Rating where
  | excellent
  | good
  | fair
  | poor
  | unknown
deriving DecidableEq

structure DayScore where
  rating : Rating
  score : ℚ
deriving DecidableEq

structure ForecastDay where
  date : String
  tempHigh : Option ℚ
  tempLow : Option ℚ
  summary : String
  icon : String
  rating : Rating
  score : ℚ
deriving DecidableEq

structure BestWindow where
  start : String
  «end» : String
  days : List ForecastDay
  totalScore : ℚ
deriving DecidableEq

inductive RecommendationType where
  | tap_now
  | upcoming
  | no_window
  | season_over
  | too_cold
deriving DecidableEq

structure Recommendation where
  type : RecommendationType
  message : String
deriving DecidableEq

-- ── Scoring constants (all in °C, from src/scoring.ts) ─────────────────────

def FREEZE_THRESHOLD : ℚ := 0
def THAW_THRESHOLD : ℚ := 2
def IDEAL_LOW_MIN : ℚ := -7
def IDEAL_LOW_MAX : ℚ := -2
def IDEAL_HIGH_MIN : ℚ := 4
def IDEAL_HIGH_MAX : ℚ := 10

-- ── Day rating (scoreDay) ──────────────────────────────────────────────────

def scoreDay (tempLow tempHigh : ℚ) : DayScore :=
  if ¬ (tempLow < FREEZE_THRESHOLD) ∨ ¬ (THAW_THRESHOLD < tempHigh) then
    ⟨Rating.poor, 0⟩
  else if (IDEAL_LOW_MIN ≤ tempLow ∧ tempLow ≤ IDEAL_LOW_MAX) ∧
          (IDEAL_HIGH_MIN ≤ tempHigh ∧ tempHigh ≤ IDEAL_HIGH_MAX) then
    ⟨Rating.excellent, 3⟩
  else if (IDEAL_LOW_MIN ≤ tempLow ∧ tempLow ≤ IDEAL_LOW_MAX) ∨
          (IDEAL_HIGH_MIN ≤ tempHigh ∧ tempHigh ≤ IDEAL_HIGH_MAX) then
    ⟨Rating.good, 2⟩
  else
    ⟨Rating.fair, 1⟩

-- ── Window finder (findBestWindow) ─────────────────────────────────────────

/-- Closing a current run: set its `end` to the date of its last day
(the run's day list is never empty in the source; the `getD` default keeps
the previous `end` and is unreachable) and compare it against the
best-so-far exactly as the source does. -/
def closeRun (bestRun : Option BestWindow) (c : BestWindow) : Option BestWindow :=
  let closed : BestWindow :=
    { c with «end» := ((c.days.getLast?).map (fun d => d.date)).getD (c.«end») }
  match bestRun with
  | none => some closed
  | some b =>
    if closed.days.length > b.days.length ∨
       (closed.days.length = b.days.length ∧ closed.totalScore > b.totalScore) then
      some closed
    else
      some b

/-- The single left-to-right scan of `findBestWindow`, with the loop state
(best-so-far, current run) made explicit. -/
def findBestWindowGo : List ForecastDay → Option BestWindow → Option BestWindow → Option BestWindow
  | [], bestRun, currentRun =>
    match currentRun with
    | none => bestRun
    | some c => closeRun bestRun c
  | day :: rest, bestRun, currentRun =>
    if (2 : ℚ) ≤ day.score then
      match currentRun with
      | none =>
        findBestWindowGo rest bestRun (some ⟨day.date, day.date, [day], day.score⟩)
      | some c =>
        findBestWindowGo rest bestRun
          (some { c with days := c.days ++ [day], totalScore := c.totalScore + day.score })
    else
      match currentRun with
      | none => findBestWindowGo rest bestRun none
      | some c => findBestWindowGo rest (closeRun bestRun c) none

def findBestWindow (days : List ForecastDay) : Option BestWindow :=
  findBestWindowGo days none none

-- ── Specification-side window selection ────────────────────────────────────

def scoreSum (run : List ForecastDay) : ℚ := (run.map (fun d => d.score)).sum

/-- The window a closed run denotes: start/end dates from its first/last
member, member days in order, total score the sum of member scores. -/
def runWindow (run : List ForecastDay) : BestWindow :=
  { start := ((run.head?).map (fun d => d.date)).getD (""),
    «end» := ((run.getLast?).map (fun d => d.date)).getD (""),
    days := run,
    totalScore := scoreSum run }

/-- Modelled from the spec: split the day sequence into its maximal
contiguous runs of days with score ≥ 2, in input order (`acc` is the
currently open run). -/
def runsGo : List ForecastDay → List ForecastDay → List (List ForecastDay)
  | [], acc => if acc = [] then [] else [acc]
  | d :: rest, acc =>
    if (2 : ℚ) ≤ d.score then runsGo rest (acc ++ [d])
    else if acc = [] then runsGo rest [] else acc :: runsGo rest []

def qualifyingRuns (days : List ForecastDay) : List (List ForecastDay) :=
  runsGo days []

/-- Modelled from the spec: the selection rule applied to one newly closed
run.  A strictly longer run beats the best-so-far; at equal length a
strictly higher total score wins; with no best-so-far the run wins
unconditionally. -/
def pickRun (best : Option BestWindow) (run : List ForecastDay) : Option BestWindow :=
  match best with
  | none => some (runWindow run)
  | some b =>
    if run.length > b.days.length ∨
       (run.length = b.days.length ∧ scoreSum run > b.totalScore) then
      some (runWindow run)
    else
      some b

/-- Modelled from the spec: fold the selection rule over the maximal
qualifying runs in input order. -/
def specBestWindow (days : List ForecastDay) : Option BestWindow :=
  (qualifyingRuns days).foldl pickRun none

/-- Lexicographic "strictly preferred" on (run length, total score). -/
def lexBetter (a b : ℕ × ℚ) : Prop := b.1 < a.1 ∨ (a.1 = b.1 ∧ b.2 < a.2)

def runKey (r : List ForecastDay) : ℕ × ℚ := (r.length, scoreSum r)

-- ── Recommendation generator (generateRecommendation) ──────────────────────

/-- The no-window branch of `generateRecommendation`.  Note the source's
`allWarm`/`allFrozen` checks require the temperature to be *known*
(`!== null`) on every single day. -/
def noWindowRec (days : List ForecastDay) : Recommendation :=
  let allWarm := days.all fun d =>
    match d.tempLow with
    | some l => decide (FREEZE_THRESHOLD < l)
    | none => false
  if allWarm then
    ⟨RecommendationType.season_over, ("Season may be over — no freezing nights in the forecast.")⟩
  else
    let allFrozen := days.all fun d =>
      match d.tempHigh with
      | some h => decide (h ≤ THAW_THRESHOLD)
      | none => false
    if allFrozen then
      ⟨RecommendationType.too_cold, ("Too cold — daytime temperatures aren\x27t rising above freezing yet.")⟩
    else
      ⟨RecommendationType.no_window, ("No strong tapping window in the current forecast.")⟩

/-- `generateRecommendation`, parametric in the `formatDate` presentation
function `fmt`.  The result is `none` exactly where the JavaScript source
would throw: the `days[0].date` access with an empty `days` and a
non-empty window. -/
def generateRecommendation (fmt : String → String) (days : List ForecastDay)
    (bestWindow : Option BestWindow) : Option Recommendation :=
  match bestWindow with
  | none => some (noWindowRec days)
  | some w =>
    if w.days.length = 0 then some (noWindowRec days)
    else
      match days.head? with
      | none => none
      | some first =>
        let startDate := w.start
        let isToday : Bool := decide (startDate = first.date)
        let len := w.days.length
        if len = 1 then
          some ⟨RecommendationType.no_window,
            ("Only a brief 1-day window ") ++
              (if isToday then ("today") else ("coming ") ++ fmt startDate) ++
              (" — longer freeze-thaw runs produce much better sap flow.")⟩
        else
          let avgScore := w.totalScore / (len : ℚ)
          let quality := if (5 : ℚ) / 2 ≤ avgScore then ("excellent") else ("good")
          if isToday then
            let stretch := if 3 ≤ len then (" Great stretch for strong sap flow.") else ("")
            some ⟨RecommendationType.tap_now,
              ("Tap now — ") ++ quality ++ (" conditions for the next ") ++
                toString len ++ (" days.") ++ stretch⟩
          else
            let windowQuality := if 3 ≤ len then ("Great") else ("Good")
            some ⟨RecommendationType.upcoming,
              windowQuality ++ (" window coming ") ++ fmt startDate ++ (" — ") ++
                toString len ++ (" days of favorable conditions.")⟩

-- ── Season timing (getSeasonInfo, doyToDate) ───────────────────────────────

structure ReferencePoint where
  lat : ℚ
  tapByDoy : ℤ
  seasonEndDoy : ℤ
deriving DecidableEq

def SEASON_REFERENCE_POINTS : List ReferencePoint :=
  [⟨39, 45, 59⟩, ⟨43, 65, 79⟩, ⟨45, 76, 90⟩, ⟨47, 94, 108⟩, ⟨49, 104, 118⟩]

/-- JavaScript `Math.abs`. -/
def jsAbs (x : ℚ) : ℚ := if x < 0 then -x else x

/-- JavaScript `Math.min` on two numbers. -/
def jsMin (a b : ℚ) : ℚ := if a ≤ b then a else b

/-- JavaScript `Math.max` on two numbers. -/
def jsMax (a b : ℚ) : ℚ := if a ≤ b then b else a

/-- JavaScript `Math.round`: round half toward positive infinity. -/
def jsRound (x : ℚ) : ℤ := ⌊x + 1 / 2⌋

/-- The bracket-search loop of `getSeasonInfo`: first consecutive pair of
reference points with `lower.lat ≤ lat ≤ upper.lat`. -/
def bracketLoop : List ReferencePoint → ℚ → Option (ReferencePoint × ReferencePoint)
  | p :: q :: rest, lat =>
    if p.lat ≤ lat ∧ lat ≤ q.lat then some (p, q) else bracketLoop (q :: rest) lat
  | _, _ => none

/-- The day-of-year computation of `getSeasonInfo`: clamp `|latitude|` to
[39, 49], use an endpoint row directly at or past the table edges,
otherwise round the linear interpolation over the bracketing pair.
(The `getD` default is unreachable: the bracket search succeeds for every
clamped latitude strictly between the table edges.) -/
def getSeasonDoys (latitude : ℚ) : ℤ × ℤ :=
  let lat := jsMin 49 (jsMax 39 (jsAbs latitude))
  let pts := SEASON_REFERENCE_POINTS
  let p0 := pts.headD ⟨0, 0, 0⟩
  let pLast := pts.getLastD ⟨0, 0, 0⟩
  if lat ≤ p0.lat then (p0.tapByDoy, p0.seasonEndDoy)
  else if pLast.lat ≤ lat then (pLast.tapByDoy, pLast.seasonEndDoy)
  else
    let lu := (bracketLoop pts lat).getD (p0, pts.getD 1 ⟨0, 0, 0⟩)
    let lower := lu.1
    let upper := lu.2
    let t := (lat - lower.lat) / (upper.lat - lower.lat)
    (jsRound ((lower.tapByDoy : ℚ) + t * ((upper.tapByDoy : ℚ) - (lower.tapByDoy : ℚ))),
     jsRound ((lower.seasonEndDoy : ℚ) + t * ((upper.seasonEndDoy : ℚ) - (lower.seasonEndDoy : ℚ))))

def isLeapYear (y : ℕ) : Bool := (y % 4 == 0 && y % 100 != 0) || y % 400 == 0

def daysInYear (y : ℕ) : ℕ := if isLeapYear y then 366 else 365

def monthLengths (y : ℕ) : List ℕ :=
  [31, if isLeapYear y then 29 else 28, 31, 30, 31, 30, 31, 31, 30, 31, 30, 31]

/-- Walk the month-length table: month number and day-of-month of a
1-based day-of-year. -/
def monthDayOfDoy : List ℕ → ℕ → ℕ → ℕ × ℕ
  | [], m, d => (m, d)
  | ml :: rest, m, d => if d ≤ ml then (m, d) else monthDayOfDoy rest (m + 1) (d - ml)

def pad2 (n : ℕ) : String := (if n < 10 then ("0") else ("")) ++ toString n

def pad4 (n : ℕ) : String :=
  (if n < 10 then ("000") else if n < 100 then ("00") else if n < 1000 then ("0") else ("")) ++
    toString n

/-- `doyToDate` from the season-timing module: day-of-year plus year to an
ISO `YYYY-MM-DD` string (UTC Gregorian arithmetic, as run in the
Cloudflare Workers UTC environment).  Faithful for `doy ≥ 1`; day-of-year
counts past the end of the year roll into following years exactly as the
JavaScript `Date` constructor does. -/
def doyToDate (doy : ℕ) (year : ℕ) : String :=
  if daysInYear year < doy then doyToDate (doy - daysInYear year) (year + 1)
  else
    let md := monthDayOfDoy (monthLengths year) 1 doy
    pad4 year ++ ("-") ++ pad2 md.1 ++ ("-") ++ pad2 md.2
termination_by doy
decreasing_by
  have h365 : 365 ≤ daysInYear year := by simp only [daysInYear]; split <;> omega
  omega

/-- `getSeasonInfo`, reduced to its two computed dates.  The advisory
`message` field of the source is a fixed text template over the two
locale-formatted dates (pure presentation) and is not modelled. -/
def getSeasonInfo (latitude : ℚ) (year : ℕ) : String × String :=
  let dts := getSeasonDoys latitude
  (doyToDate dts.1.toNat year, doyToDate dts.2.toNat year)

-- ── Concrete sample days (used by witnesses and counterexamples) ───────────

/-- A day with missing temperature data, as the boundary layer builds it. -/
def unknownDayEx : ForecastDay :=
  ⟨("2025-02-01"), none, none, (""), (""), Rating.unknown, 0⟩

/-- A poor day (score 0) on the same date whose known temperatures are all
above freezing. -/
def poorDayEx : ForecastDay :=
  ⟨("2025-02-01"), some 10, some 5, (""), (""), Rating.poor, 0⟩

/-- A good (score 2) day. -/
def goodDayA : ForecastDay :=
  ⟨("2025-02-02"), some 14, some (-4), (""), (""), Rating.good, 2⟩

/-- A second good (score 2) day, later in the sequence. -/
def goodDayB : ForecastDay :=
  ⟨("2025-02-04"), some 14, some (-4), (""), (""), Rating.good, 2⟩

/-- A poor separator day. -/
def poorDayMid : ForecastDay :=
  ⟨("2025-02-03"), some 1, some (-4), (""), (""), Rating.poor, 0⟩

-- ── Theorems ───────────────────────────────────────────────────────────────

/-- C1: for every pair of rational temperatures, `scoreDay` returns
(poor, 0) exactly when `tempLow ≥ 0` or `tempHigh ≤ 2`; otherwise it is
(excellent, 3) iff `tempLow ∈ [-7, -2]` and `tempHigh ∈ [4, 10]`,
(good, 2) iff exactly one of those sub-range conditions holds, and
(fair, 1) iff neither holds. -/
theorem scoreDay_characterization (low high : ℚ) :
    (scoreDay low high = ⟨Rating.poor, 0⟩ ↔ (0 ≤ low ∨ high ≤ 2)) ∧
    (scoreDay low high = ⟨Rating.excellent, 3⟩ ↔
      (low < 0 ∧ 2 < high ∧ ((-7 ≤ low ∧ low ≤ -2) ∧ (4 ≤ high ∧ high ≤ 10)))) ∧
    (scoreDay low high = ⟨Rating.good, 2⟩ ↔
      (low < 0 ∧ 2 < high ∧
        (((-7 ≤ low ∧ low ≤ -2) ∧ ¬ (4 ≤ high ∧ high ≤ 10)) ∨
         (¬ (-7 ≤ low ∧ low ≤ -2) ∧ (4 ≤ high ∧ high ≤ 10))))) ∧
    (scoreDay low high = ⟨Rating.fair, 1⟩ ↔
      (low < 0 ∧ 2 < high ∧ ¬ (-7 ≤ low ∧ low ≤ -2) ∧ ¬ (4 ≤ high ∧ high ≤ 10))) := by
  by_cases hP : 0 ≤ low ∨ high ≤ 2
  · have hsc : scoreDay low high = ⟨Rating.poor, 0⟩ := by
      simp only [scoreDay, FREEZE_THRESHOLD, THAW_THRESHOLD, IDEAL_LOW_MIN, IDEAL_LOW_MAX,
        IDEAL_HIGH_MIN, IDEAL_HIGH_MAX, not_lt]
      rw [if_pos hP]
    have hcontra : ¬ (low < 0 ∧ 2 < high) := by
      rintro ⟨a, b⟩; rcases hP with h | h <;> linarith
    rw [hsc]
    refine ⟨by simp [hP], ?_, ?_, ?_⟩ <;>
      exact ⟨fun hx => absurd hx (by decide), fun hr => absurd ⟨hr.1, hr.2.1⟩ hcontra⟩
  · have hP2 : low < 0 ∧ 2 < high := by
      push_neg at hP; exact hP
    by_cases hL : (-7 : ℚ) ≤ low ∧ low ≤ -2 <;> by_cases hH : (4 : ℚ) ≤ high ∧ high ≤ 10
    · have hsc : scoreDay low high = ⟨Rating.excellent, 3⟩ := by
        simp only [scoreDay, FREEZE_THRESHOLD, THAW_THRESHOLD, IDEAL_LOW_MIN, IDEAL_LOW_MAX,
          IDEAL_HIGH_MIN, IDEAL_HIGH_MAX, not_lt]
        rw [if_neg hP, if_pos ⟨hL, hH⟩]
      rw [hsc]
      refine ⟨⟨fun hx => absurd hx (by decide), fun hr => absurd hr hP⟩,
        iff_of_true rfl ⟨hP2.1, hP2.2, hL, hH⟩, ?_, ?_⟩
      · exact ⟨fun hx => absurd hx (by decide),
          fun hr => by rcases hr.2.2 with h | h; exact absurd hH h.2; exact absurd hL h.1⟩
      · exact ⟨fun hx => absurd hx (by decide), fun hr => absurd hL hr.2.2.1⟩
    · have hsc : scoreDay low high = ⟨Rating.good, 2⟩ := by
        simp only [scoreDay, FREEZE_THRESHOLD, THAW_THRESHOLD, IDEAL_LOW_MIN, IDEAL_LOW_MAX,
          IDEAL_HIGH_MIN, IDEAL_HIGH_MAX, not_lt]
        rw [if_neg hP, if_neg (fun hc => hH hc.2), if_pos (Or.inl hL)]
      rw [hsc]
      refine ⟨⟨fun hx => absurd hx (by decide), fun hr => absurd hr hP⟩,
        ⟨fun hx => absurd hx (by decide), fun hr => absurd hr.2.2.2 hH⟩,
        iff_of_true rfl ⟨hP2.1, hP2.2, Or.inl ⟨hL, hH⟩⟩,
        ⟨fun hx => absurd hx (by decide), fun hr => absurd hL hr.2.2.1⟩⟩
    · have hsc : scoreDay low high = ⟨Rating.good, 2⟩ := by
        simp only [scoreDay, FREEZE_THRESHOLD, THAW_THRESHOLD, IDEAL_LOW_MIN, IDEAL_LOW_MAX,
          IDEAL_HIGH_MIN, IDEAL_HIGH_MAX, not_lt]
        rw [if_neg hP, if_neg (fun hc => hL hc.1), if_pos (Or.inr hH)]
      rw [hsc]
      refine ⟨⟨fun hx => absurd hx (by decide), fun hr => absurd hr hP⟩,
        ⟨fun hx => absurd hx (by decide), fun hr => absurd hr.2.2.1 hL⟩,
        iff_of_true rfl ⟨hP2.1, hP2.2, Or.inr ⟨hL, hH⟩⟩,
        ⟨fun hx => absurd hx (by decide), fun hr => absurd hH hr.2.2.2⟩⟩
    · have hsc : scoreDay low high = ⟨Rating.fair, 1⟩ := by
        simp only [scoreDay, FREEZE_THRESHOLD, THAW_THRESHOLD, IDEAL_LOW_MIN, IDEAL_LOW_MAX,
          IDEAL_HIGH_MIN, IDEAL_HIGH_MAX, not_lt]
        rw [if_neg hP, if_neg (fun hc => hL hc.1),
          if_neg (by rintro (h | h); exact hL h; exact hH h)]
      rw [hsc]
      refine ⟨⟨fun hx => absurd hx (by decide), fun hr => absurd hr hP⟩,
        ⟨fun hx => absurd hx (by decide), fun hr => absurd hr.2.2.1 hL⟩,
        ⟨fun hx => absurd hx (by decide),
          fun hr => by rcases hr.2.2 with h | h; exact absurd h.1 hL; exact absurd h.2 hH⟩,
        iff_of_true rfl ⟨hP2.1, hP2.2, hL, hH⟩⟩

-- ── Helper lemmas: window finder vs. run decomposition ─────────────────────

theorem head_append_ne_nil {α : Type} (l l' : List α) (h : l ≠ []) :
    (l ++ l').head? = l.head? := by
  cases l with
  | nil => exact absurd rfl h
  | cons a t => rfl

theorem scoreSum_append_singleton (acc : List ForecastDay) (d : ForecastDay) :
    scoreSum (acc ++ [d]) = scoreSum acc + d.score := by
  simp [scoreSum]

theorem scoreSum_singleton (d : ForecastDay) : scoreSum [d] = d.score := by
  simp [scoreSum]

theorem closeRun_eq_pickRun (best : Option BestWindow) (w : BestWindow)
    (acc : List ForecastDay) (h1 : acc ≠ []) (h2 : w.days = acc)
    (h3 : w.start = ((acc.head?).map (fun d => d.date)).getD (""))
    (h4 : w.totalScore = scoreSum acc) :
    closeRun best w = pickRun best acc := by
  obtain ⟨ws, we, wd, wt⟩ := w
  simp only at h2 h3 h4
  subst h2; subst h3; subst h4
  have hlast : wd.getLast? = some (wd.getLast h1) := List.getLast?_eq_getLast wd h1
  cases best <;> simp [closeRun, pickRun, runWindow, hlast]

theorem findBestWindowGo_eq_foldl (days : List ForecastDay) :
    ∀ (best cur : Option BestWindow) (acc : List ForecastDay),
      ((cur = none ∧ acc = []) ∨
        (∃ w, cur = some w ∧ acc ≠ [] ∧ w.days = acc ∧
          w.start = ((acc.head?).map (fun d => d.date)).getD ("") ∧
          w.totalScore = scoreSum acc)) →
      findBestWindowGo days best cur = (runsGo days acc).foldl pickRun best := by
  induction days with
  | nil =>
    intro best cur acc h
    rcases h with ⟨hc, ha⟩ | ⟨w, hc, h1, h2, h3, h4⟩
    · subst hc; subst ha; rfl
    · subst hc
      simp only [findBestWindowGo, runsGo, if_neg h1, List.foldl]
      exact closeRun_eq_pickRun best w acc h1 h2 h3 h4
  | cons d rest ih =>
    intro best cur acc h
    by_cases hq : (2 : ℚ) ≤ d.score
    · rcases h with ⟨hc, ha⟩ | ⟨w, hc, h1, h2, h3, h4⟩
      · subst hc; subst ha
        simp only [findBestWindowGo, if_pos hq, runsGo, List.nil_append]
        exact ih best _ [d] (Or.inr ⟨_, rfl, by simp, rfl, by simp, (scoreSum_singleton d).symm⟩)
      · subst hc
        simp only [findBestWindowGo, if_pos hq, runsGo]
        refine ih best _ (acc ++ [d]) (Or.inr ⟨_, rfl, by simp, by simp [h2], ?_, ?_⟩)
        · rw [head_append_ne_nil acc [d] h1]; exact h3
        · rw [scoreSum_append_singleton]; simp [h4]
    · rcases h with ⟨hc, ha⟩ | ⟨w, hc, h1, h2, h3, h4⟩
      · subst hc; subst ha
        simp only [findBestWindowGo, if_neg hq, runsGo, if_pos rfl]
        exact ih best none [] (Or.inl ⟨rfl, rfl⟩)
      · subst hc
        simp only [findBestWindowGo, if_neg hq, runsGo, if_neg h1, List.foldl]
        rw [closeRun_eq_pickRun best w acc h1 h2 h3 h4]
        exact ih _ none [] (Or.inl ⟨rfl, rfl⟩)

theorem findBestWindow_eq_spec (days : List ForecastDay) :
    findBestWindow days = specBestWindow days :=
  findBestWindowGo_eq_foldl days none none [] (Or.inl ⟨rfl, rfl⟩)

theorem pickRun_ne_none (best : Option BestWindow) (run : List ForecastDay) :
    pickRun best run ≠ none := by
  cases best with
  | none => simp [pickRun]
  | some b => simp only [pickRun]; split <;> simp

theorem foldl_pickRun_eq_none (runs : List (List ForecastDay)) :
    ∀ best, runs.foldl pickRun best = none ↔ (best = none ∧ runs = []) := by
  induction runs with
  | nil => intro best; simp
  | cons r rest ih =>
    intro best
    simp only [List.foldl, ih (pickRun best r)]
    simp [pickRun_ne_none best r]

theorem runsGo_eq_nil_iff (days : List ForecastDay) :
    ∀ acc, runsGo days acc = [] ↔ (acc = [] ∧ ∀ d ∈ days, d.score < 2) := by
  induction days with
  | nil =>
    intro acc
    by_cases ha : acc = [] <;> simp [runsGo, ha]
  | cons d rest ih =>
    intro acc
    by_cases hq : (2 : ℚ) ≤ d.score
    · simp only [runsGo, if_pos hq, ih (acc ++ [d])]
      simp [not_lt.mpr hq]
    · by_cases ha : acc = []
      · subst ha
        rw [show runsGo (d :: rest) [] = runsGo rest [] from by simp [runsGo, hq]]
        rw [ih []]
        simp [lt_of_not_le hq]
      · simp only [runsGo, if_neg hq, if_neg ha]
        simp [ha]

theorem mem_runsGo_ne_nil (days : List ForecastDay) :
    ∀ acc r, r ∈ runsGo days acc → r ≠ [] := by
  induction days with
  | nil =>
    intro acc r hr
    by_cases ha : acc = []
    · simp [runsGo, ha] at hr
    · simp [runsGo, ha] at hr; simpa [hr] using ha
  | cons d rest ih =>
    intro acc r hr
    by_cases hq : (2 : ℚ) ≤ d.score
    · exact ih (acc ++ [d]) r (by simpa [runsGo, if_pos hq] using hr)
    · by_cases ha : acc = []
      · exact ih [] r (by simpa [runsGo, if_neg hq, ha] using hr)
      · simp only [runsGo, if_neg hq, if_neg ha, List.mem_cons] at hr
        rcases hr with hr | hr
        · simpa [hr] using ha
        · exact ih [] r hr

theorem mem_runsGo_scores (days : List ForecastDay) :
    ∀ acc r, (∀ d ∈ acc, (2 : ℚ) ≤ d.score) → r ∈ runsGo days acc →
      ∀ d ∈ r, (2 : ℚ) ≤ d.score := by
  induction days with
  | nil =>
    intro acc r hacc hr
    by_cases ha : acc = []
    · simp [runsGo, ha] at hr
    · simp [runsGo, ha] at hr; subst hr; exact hacc
  | cons d rest ih =>
    intro acc r hacc hr
    by_cases hq : (2 : ℚ) ≤ d.score
    · refine ih (acc ++ [d]) r ?_ (by simpa [runsGo, if_pos hq] using hr)
      intro x hx
      rcases List.mem_append.mp hx with hx | hx
      · exact hacc x hx
      · simp at hx; subst hx; exact hq
    · by_cases ha : acc = []
      · exact ih [] r (by simp) (by simpa [runsGo, if_neg hq, ha] using hr)
      · simp only [runsGo, if_neg hq, if_neg ha, List.mem_cons] at hr
        rcases hr with hr | hr
        · subst hr; exact hacc
        · exact ih [] r (by simp) hr

theorem mem_runsGo_contiguous (days : List ForecastDay) :
    ∀ acc r, r ∈ runsGo days acc →
      ∃ pre post, acc ++ days = pre ++ r ++ post := by
  induction days with
  | nil =>
    intro acc r hr
    by_cases ha : acc = []
    · simp [runsGo, ha] at hr
    · simp [runsGo, ha] at hr
      exact ⟨[], [], by simp [hr]⟩
  | cons d rest ih =>
    intro acc r hr
    by_cases hq : (2 : ℚ) ≤ d.score
    · obtain ⟨pre, post, hpp⟩ := ih (acc ++ [d]) r (by simpa [runsGo, if_pos hq] using hr)
      exact ⟨pre, post, by simpa using hpp⟩
    · by_cases ha : acc = []
      · obtain ⟨pre, post, hpp⟩ := ih [] r (by simpa [runsGo, if_neg hq, ha] using hr)
        have hpp2 : rest = pre ++ (r ++ post) := by simpa [List.append_assoc] using hpp
        subst ha
        exact ⟨d :: pre, post, by simp [hpp2]⟩
      · simp only [runsGo, if_neg hq, if_neg ha, List.mem_cons] at hr
        rcases hr with hr | hr
        · exact ⟨[], d :: rest, by simp [hr]⟩
        · obtain ⟨pre, post, hpp⟩ := ih [] r hr
          have hpp2 : rest = pre ++ (r ++ post) := by simpa [List.append_assoc] using hpp
          exact ⟨acc ++ d :: pre, post, by simp [hpp2, List.append_assoc]⟩

theorem foldl_pickRun_mem (runs : List (List ForecastDay)) :
    ∀ best w, runs.foldl pickRun best = some w →
      best = some w ∨ ∃ r ∈ runs, w = runWindow r := by
  induction runs with
  | nil => intro best w h; exact Or.inl h
  | cons r rest ih =>
    intro best w h
    rcases ih (pickRun best r) w h with hp | ⟨r', hr', hw⟩
    · cases best with
      | none =>
        simp only [pickRun] at hp
        exact Or.inr ⟨r, by simp, (Option.some.injEq _ _ ▸ hp).symm⟩
      | some b =>
        simp only [pickRun] at hp
        by_cases hc : r.length > b.days.length ∨
            (r.length = b.days.length ∧ scoreSum r > b.totalScore)
        · rw [if_pos hc] at hp
          exact Or.inr ⟨r, by simp, (Option.some.injEq _ _ ▸ hp).symm⟩
        · rw [if_neg hc] at hp
          exact Or.inl hp
    · exact Or.inr ⟨r', by simp [hr'], hw⟩

theorem findBestWindow_some_run (days : List ForecastDay) (w : BestWindow)
    (h : findBestWindow days = some w) :
    ∃ r ∈ qualifyingRuns days, w = runWindow r := by
  rw [findBestWindow_eq_spec] at h
  unfold specBestWindow at h
  rcases foldl_pickRun_mem _ none w h with hp | hm
  · exact absurd hp (by simp)
  · exact hm

/-- C2: `findBestWindow` returns null exactly when no day scores ≥ 2 (so in
particular on empty, all-poor and all-fair input), and in general it equals
the fold of the selection rule — longer run wins, equal length decided by
strictly higher total score, first closed run kept unconditionally — over
the maximal contiguous runs of score-≥-2 days in input order. -/
theorem findBestWindow_selection (days : List ForecastDay) :
    findBestWindow days = specBestWindow days ∧
    (findBestWindow days = none ↔ ∀ d ∈ days, d.score < 2) := by
  refine ⟨findBestWindow_eq_spec days, ?_⟩
  rw [findBestWindow_eq_spec days]
  unfold specBestWindow qualifyingRuns
  rw [foldl_pickRun_eq_none (runsGo days []) none]
  rw [runsGo_eq_nil_iff days []]
  simp

/-- C3: any non-null result of `findBestWindow` satisfies the Window
invariant: non-empty member list, every member scoring ≥ 2, members a
contiguous sub-sequence of the input in input order, start/end the dates
of the first/last member, and total score the sum of member scores. -/
theorem findBestWindow_invariant (days : List ForecastDay) (w : BestWindow)
    (h : findBestWindow days = some w) :
    ∃ hne : w.days ≠ [],
      (∀ d ∈ w.days, (2 : ℚ) ≤ d.score) ∧
      (∃ pre post, days = pre ++ w.days ++ post) ∧
      w.start = (w.days.head hne).date ∧
      w.«end» = (w.days.getLast hne).date ∧
      w.totalScore = scoreSum w.days := by
  obtain ⟨r, hr, hw⟩ := findBestWindow_some_run days w h
  have hne : r ≠ [] := mem_runsGo_ne_nil days [] r hr
  subst hw
  refine ⟨hne, mem_runsGo_scores days [] r (by simp) hr, ?_, ?_, ?_, rfl⟩
  · obtain ⟨pre, post, hpp⟩ := mem_runsGo_contiguous days [] r hr
    exact ⟨pre, post, by simpa using hpp⟩
  · show ((r.head?).map (fun d => d.date)).getD ("") = (r.head hne).date
    rw [List.head?_eq_head hne]
    rfl
  · show ((r.getLast?).map (fun d => d.date)).getD ("") = (r.getLast hne).date
    rw [List.getLast?_eq_getLast r hne]
    rfl

theorem findBestWindow_invariant_witness :
    ∃ hne : (⟨("2025-02-02"), ("2025-02-02"), [goodDayA], 2⟩ : BestWindow).days ≠ [],
      (∀ d ∈ (⟨("2025-02-02"), ("2025-02-02"), [goodDayA], 2⟩ : BestWindow).days,
        (2 : ℚ) ≤ d.score) ∧
      (∃ pre post, [goodDayA] =
        pre ++ (⟨("2025-02-02"), ("2025-02-02"), [goodDayA], 2⟩ : BestWindow).days ++ post) ∧
      (⟨("2025-02-02"), ("2025-02-02"), [goodDayA], 2⟩ : BestWindow).start =
        ((⟨("2025-02-02"), ("2025-02-02"), [goodDayA], 2⟩ : BestWindow).days.head hne).date ∧
      (⟨("2025-02-02"), ("2025-02-02"), [goodDayA], 2⟩ : BestWindow).«end» =
        ((⟨("2025-02-02"), ("2025-02-02"), [goodDayA], 2⟩ : BestWindow).days.getLast hne).date ∧
      (⟨("2025-02-02"), ("2025-02-02"), [goodDayA], 2⟩ : BestWindow).totalScore =
        scoreSum (⟨("2025-02-02"), ("2025-02-02"), [goodDayA], 2⟩ : BestWindow).days :=
  findBestWindow_invariant [goodDayA]
    ⟨("2025-02-02"), ("2025-02-02"), [goodDayA], 2⟩ (by decide)

-- ── Helper lemmas: tie-breaking picks the earliest optimal run ─────────────

theorem lexBetter_trans {a b c : ℕ × ℚ} (h1 : lexBetter a b) (h2 : lexBetter b c) :
    lexBetter a c := by
  rcases h1 with h1 | ⟨e1, h1⟩ <;> rcases h2 with h2 | ⟨e2, h2⟩
  · exact Or.inl (lt_trans h2 h1)
  · exact Or.inl (by rw [← e2]; exact h1)
  · exact Or.inl (by rw [e1]; exact h2)
  · exact Or.inr ⟨e1.trans e2, lt_trans h2 h1⟩

theorem lexBetter_irrefl (a : ℕ × ℚ) : ¬ lexBetter a a := by simp [lexBetter]

theorem lexBetter_total (a b : ℕ × ℚ) : lexBetter a b ∨ a = b ∨ lexBetter b a := by
  rcases lt_trichotomy a.1 b.1 with h | h | h
  · exact Or.inr (Or.inr (Or.inl h))
  · rcases lt_trichotomy a.2 b.2 with h2 | h2 | h2
    · exact Or.inr (Or.inr (Or.inr ⟨h.symm, h2⟩))
    · exact Or.inr (Or.inl (Prod.ext h h2))
    · exact Or.inl (Or.inr ⟨h, h2⟩)
  · exact Or.inl (Or.inl h)

theorem get_append_left_aux {α : Type} (l l' : List α) (j : ℕ) (hj : j < l.length)
    (h : j < (l ++ l').length) : (l ++ l').get ⟨j, h⟩ = l.get ⟨j, hj⟩ := by
  simp [List.get_eq_getElem, List.getElem_append_left hj]

theorem get_concat_self {α : Type} (l : List α) (a : α) (h : l.length < (l ++ [a]).length) :
    (l ++ [a]).get ⟨l.length, h⟩ = a := by
  simp [List.get_eq_getElem]

theorem foldl_pickRun_firstmax (runs : List (List ForecastDay)) :
    ∀ w, runs.foldl pickRun none = some w →
      ∃ i, ∃ hi : i < runs.length,
        w = runWindow (runs.get ⟨i, hi⟩) ∧
        (∀ j, ∀ hj : j < runs.length, j < i →
          lexBetter (runKey (runs.get ⟨i, hi⟩)) (runKey (runs.get ⟨j, hj⟩))) ∧
        (∀ j, ∀ hj : j < runs.length,
          ¬ lexBetter (runKey (runs.get ⟨j, hj⟩)) (runKey (runs.get ⟨i, hi⟩))) := by
  induction runs using List.reverseRecOn with
  | nil => intro w h; exact absurd h (by simp)
  | append_singleton l r ih =>
    intro w h
    rw [List.foldl_append] at h
    rcases hb : l.foldl pickRun none with _ | b
    · rw [hb] at h
      have hl : l = [] := ((foldl_pickRun_eq_none l none).mp hb).2
      subst hl
      simp only [List.foldl_cons, List.foldl_nil, pickRun] at h
      refine ⟨0, by simp, (Option.some.inj h).symm, ?_, ?_⟩
      · intro j hj hji; exact absurd hji (Nat.not_lt_zero j)
      · intro j hj
        have hj0 : j = 0 := by simp at hj; omega
        subst hj0
        exact lexBetter_irrefl _
    · rw [hb] at h
      obtain ⟨i, hi, hw, hfirst, hmax⟩ := ih b hb
      have hcond : (r.length > b.days.length ∨
          (r.length = b.days.length ∧ scoreSum r > b.totalScore)) ↔
          lexBetter (runKey r) (runKey (l.get ⟨i, hi⟩)) := by
        rw [hw]; simp [runWindow, lexBetter, runKey, gt_iff_lt]
      simp only [List.foldl_cons, List.foldl_nil, pickRun] at h
      by_cases hc : r.length > b.days.length ∨
          (r.length = b.days.length ∧ scoreSum r > b.totalScore)
      · rw [if_pos hc] at h
        have hw2 := (Option.some.inj h).symm
        have hbet : lexBetter (runKey r) (runKey (l.get ⟨i, hi⟩)) := hcond.mp hc
        have hlen : l.length < (l ++ [r]).length := by simp
        refine ⟨l.length, hlen, ?_, ?_, ?_⟩
        · rw [get_concat_self]; exact hw2
        · intro j hj hji
          rw [get_concat_self, get_append_left_aux l [r] j hji hj]
          rcases lexBetter_total (runKey (l.get ⟨j, hji⟩)) (runKey (l.get ⟨i, hi⟩))
            with hx | hx | hx
          · exact absurd hx (hmax j hji)
          · rw [hx]; exact hbet
          · exact lexBetter_trans hbet hx
        · intro j hj
          rcases Nat.lt_or_ge j l.length with hjl | hjl
          · rw [get_concat_self, get_append_left_aux l [r] j hjl hj]
            intro hcon
            exact hmax j hjl (lexBetter_trans hcon hbet)
          · have hje : j = l.length := by simp at hj; omega
            subst hje
            rw [get_concat_self]
            exact lexBetter_irrefl _
      · rw [if_neg hc] at h
        have hw2 := (Option.some.inj h).symm
        have hnb : ¬ lexBetter (runKey r) (runKey (l.get ⟨i, hi⟩)) :=
          fun hx => hc (hcond.mpr hx)
        have hi2 : i < (l ++ [r]).length := by simp; omega
        refine ⟨i, hi2, ?_, ?_, ?_⟩
        · rw [get_append_left_aux l [r] i hi hi2]; exact hw2.trans hw
        · intro j hj hji
          have hjl : j < l.length := lt_trans hji hi
          rw [get_append_left_aux l [r] i hi hi2, get_append_left_aux l [r] j hjl hj]
          exact hfirst j hjl hji
        · intro j hj
          rcases Nat.lt_or_ge j l.length with hjl | hjl
          · rw [get_append_left_aux l [r] i hi hi2, get_append_left_aux l [r] j hjl hj]
            exact hmax j hjl
          · have hje : j = l.length := by simp at hj; omega
            subst hje
            rw [get_append_left_aux l [r] i hi hi2, get_concat_self]
            exact hnb

/-- C10: a non-null `findBestWindow` result is the window of the *earliest*
lexicographically maximal qualifying run: every earlier run is strictly
worse under the (length, total score) preference, and no run at all is
strictly better.  In particular, when two maximal runs tie in both length
and total score, the strict comparisons never replace the established
best-so-far, so the earlier run is returned. -/
theorem findBestWindow_earliest_on_tie (days : List ForecastDay) (w : BestWindow)
    (h : findBestWindow days = some w) :
    ∃ i, ∃ hi : i < (qualifyingRuns days).length,
      w = runWindow ((qualifyingRuns days).get ⟨i, hi⟩) ∧
      (∀ j, ∀ hj : j < (qualifyingRuns days).length, j < i →
        lexBetter (runKey ((qualifyingRuns days).get ⟨i, hi⟩))
          (runKey ((qualifyingRuns days).get ⟨j, hj⟩))) ∧
      (∀ j, ∀ hj : j < (qualifyingRuns days).length,
        ¬ lexBetter (runKey ((qualifyingRuns days).get ⟨j, hj⟩))
          (runKey ((qualifyingRuns days).get ⟨i, hi⟩))) := by
  apply foldl_pickRun_firstmax
  have hs : specBestWindow days = some w := (findBestWindow_eq_spec days).symm.trans h
  exact hs

theorem findBestWindow_earliest_on_tie_witness :
    ∃ i, ∃ hi : i < (qualifyingRuns [goodDayA, poorDayMid, goodDayB]).length,
      (⟨("2025-02-02"), ("2025-02-02"), [goodDayA], 2⟩ : BestWindow) =
        runWindow ((qualifyingRuns [goodDayA, poorDayMid, goodDayB]).get ⟨i, hi⟩) ∧
      (∀ j, ∀ hj : j < (qualifyingRuns [goodDayA, poorDayMid, goodDayB]).length, j < i →
        lexBetter (runKey ((qualifyingRuns [goodDayA, poorDayMid, goodDayB]).get ⟨i, hi⟩))
          (runKey ((qualifyingRuns [goodDayA, poorDayMid, goodDayB]).get ⟨j, hj⟩))) ∧
      (∀ j, ∀ hj : j < (qualifyingRuns [goodDayA, poorDayMid, goodDayB]).length,
        ¬ lexBetter (runKey ((qualifyingRuns [goodDayA, poorDayMid, goodDayB]).get ⟨j, hj⟩))
          (runKey ((qualifyingRuns [goodDayA, poorDayMid, goodDayB]).get ⟨i, hi⟩))) :=
  findBestWindow_earliest_on_tie [goodDayA, poorDayMid, goodDayB]
    ⟨("2025-02-02"), ("2025-02-02"), [goodDayA], 2⟩ (by decide)

-- ── Helper lemmas: recommendation generation ───────────────────────────────

theorem findBestWindow_some_days_ne_nil (days : List ForecastDay) (w : BestWindow)
    (h : findBestWindow days = some w) : days ≠ [] := by
  intro hd
  subst hd
  exact Option.noConfusion h

theorem findBestWindow_some_days_nonempty (days : List ForecastDay) (w : BestWindow)
    (h : findBestWindow days = some w) : w.days ≠ [] := by
  obtain ⟨r, hr, hw⟩ := findBestWindow_some_run days w h
  subst hw
  exact mem_runsGo_ne_nil days [] r hr

theorem findBestWindowGo_replace (post : List ForecastDay) (u p : ForecastDay)
    (hu : u.score < 2) (hp : p.score < 2) :
    ∀ (pre : List ForecastDay) (best cur : Option BestWindow),
      findBestWindowGo (pre ++ u :: post) best cur =
      findBestWindowGo (pre ++ p :: post) best cur := by
  intro pre
  induction pre with
  | nil =>
    intro best cur
    cases cur with
    | none => simp [findBestWindowGo, not_le.mpr hu, not_le.mpr hp]
    | some c => simp [findBestWindowGo, not_le.mpr hu, not_le.mpr hp]
  | cons d rest ih =>
    intro best cur
    by_cases hq : (2 : ℚ) ≤ d.score
    · cases cur with
      | none =>
        simp only [List.cons_append, findBestWindowGo, if_pos hq]
        exact ih _ _
      | some c =>
        simp only [List.cons_append, findBestWindowGo, if_pos hq]
        exact ih _ _
    · cases cur with
      | none =>
        simp only [List.cons_append, findBestWindowGo, if_neg hq]
        exact ih _ _
      | some c =>
        simp only [List.cons_append, findBestWindowGo, if_neg hq]
        exact ih _ _

theorem generateRecommendation_head_congr (fmt : String → String)
    (days days' : List ForecastDay) (w : BestWindow)
    (hlen : ¬ w.days.length = 0)
    (hhead : (days.head?).map (fun d => d.date) = (days'.head?).map (fun d => d.date)) :
    generateRecommendation fmt days (some w) = generateRecommendation fmt days' (some w) := by
  cases hd : days.head? with
  | none =>
    cases hd' : days'.head? with
    | none => simp only [generateRecommendation, if_neg hlen, hd, hd']
    | some f' => rw [hd, hd'] at hhead; simp at hhead
  | some f =>
    cases hd' : days'.head? with
    | none => rw [hd, hd'] at hhead; simp at hhead
    | some f' =>
      rw [hd, hd'] at hhead
      have hfd : f.date = f'.date := by simpa using hhead
      simp only [generateRecommendation, if_neg hlen, hd, hd', hfd]

/-- C4 counterexample: a day with missing temperatures (`unknownDayEx`) and
a poor day with known above-freezing temperatures (`poorDayEx`) on the same
date both score 0, yet the recommendation differs — the unknown day blocks
the `allWarm` check (its null low fails `tempLow !== null`), giving
`no_window`, while the poor day yields `season_over`. -/
theorem unknown_vs_poor_day_cex :
    generateRecommendation (fun s => s) [unknownDayEx] (findBestWindow [unknownDayEx]) ≠
    generateRecommendation (fun s => s) [poorDayEx] (findBestWindow [poorDayEx]) := by
  decide

/-- C4 (amended): replacing a missing-data day (`unknown`, score 0, null
temperatures) by a score-0 poor day on the same date never changes the
`findBestWindow` result, and never changes `generateRecommendation`
*provided a best window exists*; in the no-window branch the two can
differ because the generator inspects the raw temperature fields. -/
theorem unknown_vs_poor_day (fmt : String → String) (pre post : List ForecastDay)
    (u p : ForecastDay) (_huL : u.tempLow = none) (_huH : u.tempHigh = none)
    (_hur : u.rating = Rating.unknown) (hus : u.score = 0)
    (hpd : p.date = u.date) (hps : p.score = 0) :
    findBestWindow (pre ++ u :: post) = findBestWindow (pre ++ p :: post) ∧
    (findBestWindow (pre ++ u :: post) ≠ none →
      generateRecommendation fmt (pre ++ u :: post) (findBestWindow (pre ++ u :: post)) =
      generateRecommendation fmt (pre ++ p :: post) (findBestWindow (pre ++ p :: post))) := by
  have hu2 : u.score < 2 := by rw [hus]; norm_num
  have hp2 : p.score < 2 := by rw [hps]; norm_num
  have hfw : findBestWindow (pre ++ u :: post) = findBestWindow (pre ++ p :: post) :=
    findBestWindowGo_replace post u p hu2 hp2 pre none none
  refine ⟨hfw, ?_⟩
  intro hne
  rcases hww : findBestWindow (pre ++ u :: post) with _ | w
  · exact absurd hww hne
  · rw [← hfw, hww]
    have hwne : w.days ≠ [] := findBestWindow_some_days_nonempty _ w hww
    apply generateRecommendation_head_congr fmt _ _ w
      (fun h0 => hwne (List.length_eq_zero.mp h0))
    cases pre with
    | nil => simp [hpd]
    | cons a t => simp

theorem unknown_vs_poor_day_witness :
    findBestWindow [unknownDayEx, goodDayA] = findBestWindow [poorDayEx, goodDayA] ∧
    generateRecommendation (fun s => s) [unknownDayEx, goodDayA]
        (findBestWindow [unknownDayEx, goodDayA]) =
      generateRecommendation (fun s => s) [poorDayEx, goodDayA]
        (findBestWindow [poorDayEx, goodDayA]) := by
  have h := unknown_vs_poor_day (fun s => s) [] [goodDayA] unknownDayEx poorDayEx
    rfl rfl rfl rfl rfl rfl
  exact ⟨h.1, h.2 (by decide)⟩

/-- C5: when the best window exists and has exactly one day, the
recommendation is `no_window` (so never `tap_now` or `upcoming`) with the
brief-1-day-window message saying "today" when the window starts at the
first day of the sequence and "coming" plus the formatted start date
otherwise. -/
theorem generateRecommendation_single_day (fmt : String → String) (days : List ForecastDay)
    (w : BestWindow) (hw : findBestWindow days = some w) (hlen : w.days.length = 1) :
    ∃ first, days.head? = some first ∧
      generateRecommendation fmt days (findBestWindow days) =
        some ⟨RecommendationType.no_window,
          ("Only a brief 1-day window ") ++
            (if w.start = first.date then ("today") else ("coming ") ++ fmt w.start) ++
            (" — longer freeze-thaw runs produce much better sap flow.")⟩ := by
  have hne : days ≠ [] := findBestWindow_some_days_ne_nil days w hw
  obtain ⟨first, hfirst⟩ : ∃ f, days.head? = some f := by
    cases days with
    | nil => exact absurd rfl hne
    | cons a t => exact ⟨a, rfl⟩
  refine ⟨first, hfirst, ?_⟩
  rw [hw]
  simp only [generateRecommendation, hfirst, hlen]
  norm_num

theorem generateRecommendation_single_day_witness :
    ∃ first, ([goodDayA] : List ForecastDay).head? = some first ∧
      generateRecommendation (fun s => s) [goodDayA] (findBestWindow [goodDayA]) =
        some ⟨RecommendationType.no_window,
          ("Only a brief 1-day window ") ++
            (if (⟨("2025-02-02"), ("2025-02-02"), [goodDayA], 2⟩ : BestWindow).start = first.date
              then ("today")
              else ("coming ") ++ (fun s => s)
                (⟨("2025-02-02"), ("2025-02-02"), [goodDayA], 2⟩ : BestWindow).start) ++
            (" — longer freeze-thaw runs produce much better sap flow.")⟩ :=
  generateRecommendation_single_day (fun s => s) [goodDayA]
    ⟨("2025-02-02"), ("2025-02-02"), [goodDayA], 2⟩ (by decide) (by decide)

/-- C6: on the empty day sequence the window finder returns null and the
recommendation generator, whose `allWarm` every-check is vacuously true
over the empty sequence, returns `season_over` without failing. -/
theorem generateRecommendation_empty_days (fmt : String → String) :
    findBestWindow [] = none ∧
    generateRecommendation fmt [] (findBestWindow []) =
      some ⟨RecommendationType.season_over,
        ("Season may be over — no freezing nights in the forecast.")⟩ :=
  ⟨rfl, rfl⟩

/-- C9: composing the window finder and the recommendation generator never
throws: for every day sequence the result is a value (`isSome`), because a
non-null window implies a non-empty day sequence, which makes the
`days[0].date` access safe. -/
theorem generateRecommendation_total (fmt : String → String) (days : List ForecastDay) :
    (generateRecommendation fmt days (findBestWindow days)).isSome = true := by
  rcases hw : findBestWindow days with _ | w
  · simp [generateRecommendation]
  · have hne : days ≠ [] := findBestWindow_some_days_ne_nil days w hw
    obtain ⟨first, hfirst⟩ : ∃ f, days.head? = some f := by
      cases days with
      | nil => exact absurd rfl hne
      | cons a t => exact ⟨a, rfl⟩
    simp only [generateRecommendation, hfirst]
    split_ifs <;> simp

-- ── Helper lemmas: season timing and dates ─────────────────────────────────

theorem daysInYear_ge (year : ℕ) : 365 ≤ daysInYear year := by
  simp only [daysInYear]; split <;> omega

theorem iso_concat (s m d e : String) (h : ("-") ++ (m ++ (("-") ++ d)) = e) :
    s ++ ("-") ++ m ++ ("-") ++ d = s ++ e := by
  simp only [String.append_assoc]
  rw [h]

/-- C8: `doyToDate` maps day-of-year 1 to January 1 and day-of-year 60 to
February 29 in leap years and March 1 otherwise.  The year bounds restrict
to the domain where the model matches the JavaScript source exactly (the
`Date` constructor remaps two-digit years to 19xx, and `toISOString` uses
an expanded year format beyond 9999). -/
theorem doyToDate_jan1_and_leap (year : ℕ) (_h1 : 100 ≤ year) (_h2 : year ≤ 9999) :
    doyToDate 1 year = pad4 year ++ ("-01-01") ∧
    doyToDate 60 year =
      (if isLeapYear year then pad4 year ++ ("-02-29") else pad4 year ++ ("-03-01")) := by
  have h365 := daysInYear_ge year
  constructor
  · rw [doyToDate, if_neg (by omega)]
    cases hl : isLeapYear year <;>
      · simp only [monthLengths, hl, monthDayOfDoy]
        norm_num
        exact iso_concat (pad4 year) (pad2 1) (pad2 1) ("-01-01") (by decide)
  · rw [doyToDate, if_neg (by omega)]
    cases hl : isLeapYear year
    · simp only [monthLengths, hl, monthDayOfDoy, if_neg]
      norm_num
      exact iso_concat (pad4 year) (pad2 3) (pad2 1) ("-03-01") (by decide)
    · simp only [monthLengths, hl, monthDayOfDoy, if_neg]
      norm_num
      exact iso_concat (pad4 year) (pad2 2) (pad2 29) ("-02-29") (by decide)

theorem doyToDate_jan1_and_leap_witness :
    doyToDate 1 2024 = pad4 2024 ++ ("-01-01") ∧
    doyToDate 60 2024 =
      (if isLeapYear 2024 then pad4 2024 ++ ("-02-29") else pad4 2024 ++ ("-03-01")) :=
  doyToDate_jan1_and_leap 2024 (by norm_num) (by norm_num)

theorem jsMax_le_left (a b : ℚ) : a ≤ jsMax a b := by
  unfold jsMax; split_ifs with h
  · exact h
  · exact le_refl a

theorem jsMin_le_left (a b : ℚ) : jsMin a b ≤ a := by
  unfold jsMin; split_ifs with h
  · exact le_refl a
  · exact le_of_not_le h

theorem le_jsMin (c a b : ℚ) (h1 : c ≤ a) (h2 : c ≤ b) : c ≤ jsMin a b := by
  unfold jsMin; split_ifs <;> assumption

theorem jsMax_of_ge (a b : ℚ) (h : b ≤ a) : jsMax a b = a := by
  unfold jsMax; split_ifs with hab
  · exact le_antisymm h hab
  · rfl

theorem jsMax_of_le (a b : ℚ) (h : a ≤ b) : jsMax a b = b := by
  unfold jsMax; rw [if_pos h]

theorem jsMin_of_le (a b : ℚ) (h : a ≤ b) : jsMin a b = a := by
  unfold jsMin; rw [if_pos h]

theorem jsMin_of_ge (a b : ℚ) (h : b ≤ a) : jsMin a b = b := by
  unfold jsMin; split_ifs with hab
  · exact le_antisymm hab h
  · rfl

theorem jsAbs_of_nonneg (x : ℚ) (h : 0 ≤ x) : jsAbs x = x := by
  unfold jsAbs; rw [if_neg (not_lt.mpr h)]

theorem clamp_lower (la : ℚ) : 39 ≤ jsMin 49 (jsMax 39 (jsAbs la)) :=
  le_jsMin 39 49 _ (by norm_num) (jsMax_le_left 39 _)

theorem clamp_upper (la : ℚ) : jsMin 49 (jsMax 39 (jsAbs la)) ≤ 49 := jsMin_le_left _ _

theorem clamp_idem (la : ℚ) :
    jsMin 49 (jsMax 39 (jsAbs (jsMin 49 (jsMax 39 (jsAbs la))))) =
    jsMin 49 (jsMax 39 (jsAbs la)) := by
  rw [jsAbs_of_nonneg _ (le_trans (by norm_num) (clamp_lower la))]
  rw [jsMax_of_le 39 _ (clamp_lower la)]
  rw [jsMin_of_ge 49 _ (clamp_upper la)]

theorem jsRound_eq (x : ℚ) (n : ℤ) (h1 : (n : ℚ) ≤ x + 1 / 2) (h2 : x + 1 / 2 < n + 1) :
    jsRound x = n := by
  unfold jsRound
  rw [Int.floor_eq_iff]
  exact ⟨h1, h2⟩

theorem headD_ref : SEASON_REFERENCE_POINTS.headD ⟨0, 0, 0⟩ = ⟨39, 45, 59⟩ := rfl

theorem getLastD_ref : SEASON_REFERENCE_POINTS.getLastD ⟨0, 0, 0⟩ = ⟨49, 104, 118⟩ := rfl

theorem getD1_ref : SEASON_REFERENCE_POINTS.getD 1 ⟨0, 0, 0⟩ = ⟨43, 65, 79⟩ := rfl

theorem bracketLoop_eval1 (q : ℚ) (h1 : (39 : ℚ) ≤ q) (h2 : q ≤ 43) :
    bracketLoop SEASON_REFERENCE_POINTS q = some (⟨39, 45, 59⟩, ⟨43, 65, 79⟩) := by
  simp only [SEASON_REFERENCE_POINTS, bracketLoop]
  rw [if_pos ⟨h1, h2⟩]

theorem bracketLoop_eval2 (q : ℚ) (hn : ¬ q ≤ 43) (h2 : q ≤ 45) :
    bracketLoop SEASON_REFERENCE_POINTS q = some (⟨43, 65, 79⟩, ⟨45, 76, 90⟩) := by
  simp only [SEASON_REFERENCE_POINTS, bracketLoop]
  rw [if_neg (fun hc => hn hc.2), if_pos ⟨le_of_not_le hn, h2⟩]

theorem bracketLoop_eval3 (q : ℚ) (hn : ¬ q ≤ 45) (h2 : q ≤ 47) :
    bracketLoop SEASON_REFERENCE_POINTS q = some (⟨45, 76, 90⟩, ⟨47, 94, 108⟩) := by
  simp only [SEASON_REFERENCE_POINTS, bracketLoop]
  rw [if_neg (fun hc => hn (le_trans hc.2 (by norm_num))),
    if_neg (fun hc => hn hc.2), if_pos ⟨le_of_not_le hn, h2⟩]

theorem bracketLoop_eval4 (q : ℚ) (hn : ¬ q ≤ 47) (h2 : q < 49) :
    bracketLoop SEASON_REFERENCE_POINTS q = some (⟨47, 94, 108⟩, ⟨49, 104, 118⟩) := by
  simp only [SEASON_REFERENCE_POINTS, bracketLoop]
  rw [if_neg (fun hc => hn (le_trans hc.2 (by norm_num))),
    if_neg (fun hc => hn (le_trans hc.2 (by norm_num))),
    if_neg (fun hc => hn hc.2), if_pos ⟨le_of_not_le hn, le_of_lt h2⟩]

theorem getSeasonDoys_interp (la : ℚ)
    (h39 : 39 < jsMin 49 (jsMax 39 (jsAbs la)))
    (h49 : jsMin 49 (jsMax 39 (jsAbs la)) < 49)
    (lower upper : ReferencePoint)
    (hbr : bracketLoop SEASON_REFERENCE_POINTS (jsMin 49 (jsMax 39 (jsAbs la))) =
      some (lower, upper)) :
    getSeasonDoys la =
      (jsRound ((lower.tapByDoy : ℚ) +
          (jsMin 49 (jsMax 39 (jsAbs la)) - lower.lat) / (upper.lat - lower.lat) *
          ((upper.tapByDoy : ℚ) - (lower.tapByDoy : ℚ))),
       jsRound ((lower.seasonEndDoy : ℚ) +
          (jsMin 49 (jsMax 39 (jsAbs la)) - lower.lat) / (upper.lat - lower.lat) *
          ((upper.seasonEndDoy : ℚ) - (lower.seasonEndDoy : ℚ)))) := by
  simp only [getSeasonDoys, headD_ref, getLastD_ref, getD1_ref]
  rw [if_neg (not_le.mpr h39), if_neg (not_le.mpr h49), hbr]
  simp only [Option.getD_some]

/-- C7: `getSeasonDoys` (the day-of-year core of `getSeasonInfo`) clamps
the absolute latitude to [39, 49]; at or past the table edges it returns
the endpoint reference values (45, 59) and (104, 118) directly; strictly
between the edges it rounds the linear interpolation over the bracketing
pair of consecutive reference points.  Latitude 41 gives (55, 69),
latitude 55 agrees with 49, and latitude -45 with 45.  The function is
total over ℚ. -/
theorem getSeasonDoys_spec :
    (∀ la : ℚ, getSeasonDoys la = getSeasonDoys (jsMin 49 (jsMax 39 (jsAbs la)))) ∧
    (∀ la : ℚ, jsAbs la ≤ 39 → getSeasonDoys la = (45, 59)) ∧
    (∀ la : ℚ, 49 ≤ jsAbs la → getSeasonDoys la = (104, 118)) ∧
    (∀ la : ℚ, 39 < jsMin 49 (jsMax 39 (jsAbs la)) → jsMin 49 (jsMax 39 (jsAbs la)) < 49 →
      ∃ lower upper : ReferencePoint, ∃ i, ∃ hi : i + 1 < SEASON_REFERENCE_POINTS.length,
        SEASON_REFERENCE_POINTS.get ⟨i, Nat.lt_of_succ_lt hi⟩ = lower ∧
        SEASON_REFERENCE_POINTS.get ⟨i + 1, hi⟩ = upper ∧
        lower.lat ≤ jsMin 49 (jsMax 39 (jsAbs la)) ∧
        jsMin 49 (jsMax 39 (jsAbs la)) ≤ upper.lat ∧
        getSeasonDoys la =
          (jsRound ((lower.tapByDoy : ℚ) +
              (jsMin 49 (jsMax 39 (jsAbs la)) - lower.lat) / (upper.lat - lower.lat) *
              ((upper.tapByDoy : ℚ) - (lower.tapByDoy : ℚ))),
           jsRound ((lower.seasonEndDoy : ℚ) +
              (jsMin 49 (jsMax 39 (jsAbs la)) - lower.lat) / (upper.lat - lower.lat) *
              ((upper.seasonEndDoy : ℚ) - (lower.seasonEndDoy : ℚ))))) ∧
    getSeasonDoys 41 = (55, 69) ∧
    getSeasonDoys 55 = getSeasonDoys 49 ∧
    getSeasonDoys (-45) = getSeasonDoys 45 := by
  have hcl41 : jsMin 49 (jsMax 39 (jsAbs (41 : ℚ))) = 41 := by
    rw [jsAbs_of_nonneg _ (by norm_num), jsMax_of_le _ _ (by norm_num),
      jsMin_of_ge _ _ (by norm_num)]
  refine ⟨?_, ?_, ?_, ?_, ?_, ?_, ?_⟩
  · intro la
    simp only [getSeasonDoys]
    rw [clamp_idem la]
  · intro la h
    have hla : jsMin 49 (jsMax 39 (jsAbs la)) = 39 := by
      rw [jsMax_of_ge 39 _ h, jsMin_of_ge 49 39 (by norm_num)]
    simp only [getSeasonDoys, hla, headD_ref, getLastD_ref, getD1_ref]
    norm_num
  · intro la h
    have h39 : (39 : ℚ) ≤ jsAbs la := le_trans (by norm_num) h
    have hla : jsMin 49 (jsMax 39 (jsAbs la)) = 49 := by
      rw [jsMax_of_le 39 _ h39, jsMin_of_le 49 _ h]
    simp only [getSeasonDoys, hla, headD_ref, getLastD_ref, getD1_ref]
    norm_num
  · intro la h39 h49
    rcases le_or_lt (jsMin 49 (jsMax 39 (jsAbs la))) 43 with hc1 | hc1
    · exact ⟨⟨39, 45, 59⟩, ⟨43, 65, 79⟩, 0, by decide, rfl, rfl, h39.le, hc1,
        getSeasonDoys_interp la h39 h49 _ _ (bracketLoop_eval1 _ h39.le hc1)⟩
    · rcases le_or_lt (jsMin 49 (jsMax 39 (jsAbs la))) 45 with hc2 | hc2
      · exact ⟨⟨43, 65, 79⟩, ⟨45, 76, 90⟩, 1, by decide, rfl, rfl, hc1.le, hc2,
          getSeasonDoys_interp la h39 h49 _ _ (bracketLoop_eval2 _ (not_le.mpr hc1) hc2)⟩
      · rcases le_or_lt (jsMin 49 (jsMax 39 (jsAbs la))) 47 with hc3 | hc3
        · exact ⟨⟨45, 76, 90⟩, ⟨47, 94, 108⟩, 2, by decide, rfl, rfl, hc2.le, hc3,
            getSeasonDoys_interp la h39 h49 _ _ (bracketLoop_eval3 _ (not_le.mpr hc2) hc3)⟩
        · exact ⟨⟨47, 94, 108⟩, ⟨49, 104, 118⟩, 3, by decide, rfl, rfl, hc3.le, h49.le,
            getSeasonDoys_interp la h39 h49 _ _ (bracketLoop_eval4 _ (not_le.mpr hc3) h49)⟩
  · have hint := getSeasonDoys_interp 41 (by rw [hcl41]; norm_num) (by rw [hcl41]; norm_num)
      ⟨39, 45, 59⟩ ⟨43, 65, 79⟩
      (by rw [hcl41]; exact bracketLoop_eval1 41 (by norm_num) (by norm_num))
    rw [hint, hcl41]
    refine Prod.ext ?_ ?_
    · exact jsRound_eq _ 55 (by push_cast; norm_num) (by push_cast; norm_num)
    · exact jsRound_eq _ 69 (by push_cast; norm_num) (by push_cast; norm_num)
  · have hcl55 : jsMin 49 (jsMax 39 (jsAbs (55 : ℚ))) = 49 := by
      rw [jsAbs_of_nonneg _ (by norm_num), jsMax_of_le _ _ (by norm_num),
        jsMin_of_le _ _ (by norm_num)]
    have hcl49 : jsMin 49 (jsMax 39 (jsAbs (49 : ℚ))) = 49 := by
      rw [jsAbs_of_nonneg _ (by norm_num), jsMax_of_le _ _ (by norm_num),
        jsMin_of_le _ _ (by norm_num)]
    have e55 : getSeasonDoys 55 = (104, 118) := by
      simp only [getSeasonDoys, hcl55, headD_ref, getLastD_ref, getD1_ref]
      norm_num
    have e49 : getSeasonDoys 49 = (104, 118) := by
      simp only [getSeasonDoys, hcl49, headD_ref, getLastD_ref, getD1_ref]
      norm_num
    rw [e55, e49]
  · have habs : jsAbs (-45 : ℚ) = jsAbs 45 := by norm_num [jsAbs]
    simp only [getSeasonDoys, habs]

theorem getSeasonDoys_spec_witness :
    getSeasonDoys 38 = (45, 59) ∧
    getSeasonDoys 52 = (104, 118) ∧
    getSeasonDoys 41 = getSeasonDoys (jsMin 49 (jsMax 39 (jsAbs 41))) ∧
    (∃ lower upper : ReferencePoint, ∃ i, ∃ hi : i + 1 < SEASON_REFERENCE_POINTS.length,
      SEASON_REFERENCE_POINTS.get ⟨i, Nat.lt_of_succ_lt hi⟩ = lower ∧
      SEASON_REFERENCE_POINTS.get ⟨i + 1, hi⟩ = upper ∧
      lower.lat ≤ jsMin 49 (jsMax 39 (jsAbs 41)) ∧
      jsMin 49 (jsMax 39 (jsAbs 41)) ≤ upper.lat ∧
      getSeasonDoys 41 =
        (jsRound ((lower.tapByDoy : ℚ) +
            (jsMin 49 (jsMax 39 (jsAbs 41)) - lower.lat) / (upper.lat - lower.lat) *
            ((upper.tapByDoy : ℚ) - (lower.tapByDoy : ℚ))),
         jsRound ((lower.seasonEndDoy : ℚ) +
            (jsMin 49 (jsMax 39 (jsAbs 41)) - lower.lat) / (upper.lat - lower.lat) *
            ((upper.seasonEndDoy : ℚ) - (lower.seasonEndDoy : ℚ))))) :=
  ⟨getSeasonDoys_spec.2.1 38 (by decide),
   getSeasonDoys_spec.2.2.1 52 (by decide),
   getSeasonDoys_spec.1 41,
   getSeasonDoys_spec.2.2.2.1 41 (by decide) (by decide)⟩
